import Mathlib

/-!
Verification development for the Nyx native HTTP server core
(src/native/nyx_httpd.c): request parsing, header container, route and
middleware registries, response builders, serialization, and the
per-connection pipeline (handle_client).

Modelling conventions:
* C strings are Lean `String`s, one `Char` per byte (all constants are ASCII).
* A possibly-NULL `char *` is an `Option String`.
* `strncpy`-style truncation to at most `n` bytes is `ctrunc s n`.
* The process-wide static 1KB buffer used by `nyx_http_response_error` is
  threaded explicitly as a `String` state; a response body is a `Body` value
  which is either NULL, a plain buffer, or a pointer into that static buffer.
* Undefined behavior reachable in the source (a `strcmp`/`strstr` applied to
  a NULL or invalid pointer) is made explicit as `Except Crash`.
-/

set_option maxRecDepth 4096

namespace Nyx

/-- Capacity constants from nyx_httpd.c. -/
def MAX_ROUTES : Nat := 256

/-- MAX_MIDDLEWARE from nyx_httpd.c. -/
def MAX_MIDDLEWARE : Nat := 32

/-- MAX_HEADERS from nyx_httpd.c. -/
def MAX_HEADERS : Nat := 64

/-- BUFFER_SIZE from nyx_httpd.c. -/
def BUFFER_SIZE : Nat := 8192

/-- `strncpy(dst, s, n)` into a zeroed buffer stores the first `n` bytes of `s`. -/
def ctrunc (s : String) (n : Nat) : String := String.mk (s.data.take n)

/-- ASCII lowercase, as C `tolower` behaves on ASCII input. -/
def asciiLower (c : Char) : Char :=
  if 'A' ≤ c ∧ c ≤ 'Z' then Char.ofNat (c.toNat + 32) else c

/-- `strcasecmp(a, b) == 0`: case-insensitive string equality. -/
def strcaseEq (a b : String) : Bool :=
  a.data.map asciiLower == b.data.map asciiLower

/-- One entry of `HttpHeaderDict` (struct HttpHeader). -/
structure HttpHeader where
  name : String
  value : String
deriving DecidableEq, Repr

/-- struct HttpHeaderDict: insertion-ordered header store, capacity MAX_HEADERS.
`count` is the list length. -/
structure HttpHeaderDict where
  headers : List HttpHeader
deriving DecidableEq, Repr

/-- `strchr(s, c)` viewed as a split: the part before the first `c` and the
part after it, or `none` when `c` does not occur. -/
def splitAtChar (c : Char) : List Char → Option (List Char × List Char)
  | [] => none
  | x :: xs =>
    if x = c then some ([], xs)
    else
      match splitAtChar c xs with
      | some (a, b) => some (x :: a, b)
      | none => none

/-- `strstr(s, "\r\n")` viewed as a split at the first CRLF. -/
def splitCRLF : List Char → Option (List Char × List Char)
  | [] => none
  | c :: rest =>
    if c = '\x0d' ∧ rest.head? = some '\x0a' then some ([], rest.tail)
    else
      match splitCRLF rest with
      | some (a, b) => some (c :: a, b)
      | none => none

/-- Result of a successful parse_request_line. -/
structure RequestLine where
  method : String
  path : String
  query : String
  protocol : String
deriving DecidableEq, Repr

/-- parse_request_line (nyx_httpd.c:142-188): tokenizes
`METHOD SP PATH[?QUERY] SP PROTOCOL`, failing (returning -1, here `none`)
when a separator is missing or a field reaches its bound
(method ≥ 16, path ≥ 256, query ≥ 512, protocol ≥ 16 bytes). -/
def parse_request_line (line : String) : Option RequestLine :=
  match splitAtChar ' ' line.data with
  | none => none
  | some (m, rest) =>
    if m.length ≥ 16 then none
    else
      match splitAtChar ' ' rest with
      | none => none
      | some (seg, proto) =>
        match splitAtChar '?' seg with
        | some (pa, qu) =>
          if pa.length ≥ 256 then none
          else if qu.length ≥ 512 then none
          else if proto.length ≥ 16 then none
          else some ⟨String.mk m, String.mk pa, String.mk qu, String.mk proto⟩
        | none =>
          if seg.length ≥ 256 then none
          else if proto.length ≥ 16 then none
          else some ⟨String.mk m, String.mk seg, String.mk [], String.mk proto⟩

/-- parse_header (nyx_httpd.c:190-207): splits `Name: Value` at the first
colon, trims leading spaces/tabs of the value, failing when the name reaches
128 or the value 512 bytes. -/
def parse_header (line : String) : Option HttpHeader :=
  match splitAtChar ':' line.data with
  | none => none
  | some (n, rest) =>
    if n.length ≥ 128 then none
    else
      let v := rest.dropWhile (fun c => c == ' ' || c == '\x09')
      if v.length ≥ 512 then none
      else some ⟨String.mk n, String.mk v⟩

/-- A response body pointer: NULL, a plain (caller-owned or malloc'd) buffer,
or the process-wide static `error_body` buffer used by
nyx_http_response_error. -/
inductive Body where
  | null : Body
  | lit : String → Body
  | errorBuf : Body
deriving DecidableEq, Repr

/-- Dereference a body pointer given the current contents of the static
error buffer. -/
def resolveBody (errBuf : String) : Body → Option String
  | Body.null => none
  | Body.lit s => some s
  | Body.errorBuf => some errBuf

/-- struct NyxHttpRequest (the fields the core reads or writes). -/
structure NyxHttpRequest where
  method : Option String
  path : Option String
  query_string : Option String
  protocol : Option String
  host : Option String
  content_type : Option String
  content_length : Int
  headers : HttpHeaderDict
  body : Option String
  remote_addr : Option String
  remote_port : Nat
deriving DecidableEq, Repr

/-- struct NyxHttpResponse. -/
structure NyxHttpResponse where
  status_code : Int
  status_text : Option String
  headers : HttpHeaderDict
  body : Body
  body_length : Nat
  close_connection : Bool
deriving DecidableEq, Repr

/-- create_request (nyx_httpd.c:213-219): calloc leaves every field zeroed
(NULL pointers, zero lengths) and allocates an empty header dict. -/
def create_request : NyxHttpRequest :=
  ⟨none, none, none, none, none, none, 0, ⟨[]⟩, none, none, 0⟩

/-- create_response (nyx_httpd.c:227-235): zeroed, then status 200 "OK". -/
def create_response : NyxHttpResponse :=
  ⟨200, some "OK", ⟨[]⟩, Body.null, 0, false⟩

/-- Appending into an HttpHeaderDict as nyx_http_response_set_header does:
no-op at capacity, otherwise strncpy the name (≤127 bytes) and value
(≤511 bytes) into the next slot. -/
def headerDictSet (dict : HttpHeaderDict) (name value : String) : HttpHeaderDict :=
  if dict.headers.length ≥ MAX_HEADERS then dict
  else ⟨dict.headers ++ [⟨ctrunc name 127, ctrunc value 511⟩]⟩

/-- nyx_http_response_set_header (nyx_httpd.c:247-256): NULL checks, then
append via `headerDictSet`. -/
def nyx_http_response_set_header (resp : NyxHttpResponse)
    (name value : Option String) : NyxHttpResponse :=
  match name, value with
  | some n, some v => { resp with headers := headerDictSet resp.headers n v }
  | _, _ => resp

/-- nyx_http_response_json (nyx_httpd.c:258-263). -/
def nyx_http_response_json (resp : NyxHttpResponse) (status : Int)
    (json : Option String) : NyxHttpResponse :=
  let r := { resp with
    status_code := status
    body := match json with | some s => Body.lit s | none => Body.null
    body_length := match json with | some s => s.length | none => 0 }
  nyx_http_response_set_header r (some "Content-Type") (some "application/json")

/-- nyx_http_response_html (nyx_httpd.c:265-270). -/
def nyx_http_response_html (resp : NyxHttpResponse) (status : Int)
    (html : Option String) : NyxHttpResponse :=
  let r := { resp with
    status_code := status
    body := match html with | some s => Body.lit s | none => Body.null
    body_length := match html with | some s => s.length | none => 0 }
  nyx_http_response_set_header r (some "Content-Type") (some "text/html; charset=utf-8")

/-- nyx_http_response_text (nyx_httpd.c:272-277). -/
def nyx_http_response_text (resp : NyxHttpResponse) (status : Int)
    (text : Option String) : NyxHttpResponse :=
  let r := { resp with
    status_code := status
    body := match text with | some s => Body.lit s | none => Body.null
    body_length := match text with | some s => s.length | none => 0 }
  nyx_http_response_set_header r (some "Content-Type") (some "text/plain; charset=utf-8")

/-- The error page rendered by nyx_http_response_error into its static 1KB
buffer; snprintf truncates to 1023 bytes plus the terminator. A NULL message
prints as "Unknown error". -/
def renderErrorPage (status : Int) (message : Option String) : String :=
  ctrunc ("<html><head><title>" ++ toString status ++ " Error</title></head>"
    ++ "<body><h1>" ++ toString status ++ " Error</h1><p>"
    ++ message.getD "Unknown error" ++ "</p></body></html>") 1023

/-- nyx_http_response_error (nyx_httpd.c:279-291): overwrites the static
`error_body` buffer with the rendered page, points the response body at that
buffer, and appends a text/html Content-Type header. The first component is
the new contents of the static buffer. -/
def nyx_http_response_error (resp : NyxHttpResponse) (status : Int)
    (message : Option String) : String × NyxHttpResponse :=
  let page := renderErrorPage status message
  (page,
   nyx_http_response_set_header
     { resp with status_code := status, body := Body.errorBuf,
                 body_length := page.length }
     (some "Content-Type") (some "text/html"))

/-- `strrchr(s, c)`: the suffix of `s` starting at the LAST occurrence of
`c`, or `none`. -/
def strrchrSuffix (c : Char) : List Char → Option (List Char)
  | [] => none
  | x :: xs =>
    match strrchrSuffix c xs with
    | some r => some r
    | none => if x = c then some (x :: xs) else none

/-- nyx_http_response_file (nyx_httpd.c:293-338). File I/O and malloc are
abstracted as oracles: `fs` maps a path to its contents when the file can be
opened, and `allocOk` tells whether the body allocation succeeds. Returns the
new static error-buffer contents, the response, and the C return value. -/
def nyx_http_response_file (fs : String → Option String) (allocOk : Bool)
    (errBuf : String) (resp : NyxHttpResponse) (file_path : String) :
    String × NyxHttpResponse × Int :=
  match fs file_path with
  | none =>
    ((nyx_http_response_error resp 404 (some "File not found")).1,
     (nyx_http_response_error resp 404 (some "File not found")).2, -1)
  | some content =>
    if !allocOk then
      ((nyx_http_response_error resp 500 (some "Memory allocation failed")).1,
       (nyx_http_response_error resp 500 (some "Memory allocation failed")).2, -1)
    else
      let r1 := { resp with status_code := 200, body := Body.lit content,
                            body_length := content.length }
      let r2 :=
        match strrchrSuffix '.' file_path.data with
        | some extL =>
          let ext := String.mk extL
          if ext == ".html" || ext == ".htm" then
            nyx_http_response_set_header r1 (some "Content-Type") (some "text/html")
          else if ext == ".css" then
            nyx_http_response_set_header r1 (some "Content-Type") (some "text/css")
          else if ext == ".js" then
            nyx_http_response_set_header r1 (some "Content-Type") (some "application/javascript")
          else if ext == ".json" then
            nyx_http_response_set_header r1 (some "Content-Type") (some "application/json")
          else if ext == ".png" then
            nyx_http_response_set_header r1 (some "Content-Type") (some "image/png")
          else if ext == ".jpg" || ext == ".jpeg" then
            nyx_http_response_set_header r1 (some "Content-Type") (some "image/jpeg")
          else r1
        | none => r1
      (errBuf, r2, 0)

/-- nyx_http_request_get_header scan (nyx_httpd.c:348-353): first entry whose
name matches case-insensitively. -/
def findHeader : List HttpHeader → String → Option String
  | [], _ => none
  | h :: t, n => if strcaseEq h.name n then some h.value else findHeader t n

/-- nyx_http_request_get_header (nyx_httpd.c:344-354). -/
def nyx_http_request_get_header (req : NyxHttpRequest) (name : Option String) :
    Option String :=
  match name with
  | none => none
  | some n => findHeader req.headers.headers n

/-- struct HttpRoute. The handler function pointer and the opaque user-data
pointer are modelled as identifiers; a pipeline run is given an
interpretation of handler identifiers. -/
structure HttpRoute where
  method : String
  path : String
  handler : Nat
  user_data : Nat
deriving DecidableEq, Repr

/-- One middleware registration: handler identifier plus user data. -/
structure Middleware where
  handler : Nat
  user_data : Nat
deriving DecidableEq, Repr

/-- struct NyxHttpServer (the registries; sockets and logs are external). -/
structure NyxHttpServer where
  routes : List HttpRoute
  middlewares : List Middleware
deriving DecidableEq, Repr

/-- nyx_httpd_create (nyx_httpd.c:382-404): zeroed registries. -/
def nyx_httpd_create : NyxHttpServer := ⟨[], []⟩

/-- nyx_httpd_route (nyx_httpd.c:406-418): NULL checks, capacity check,
then append with strncpy truncation of the method to 15 and the path to
255 bytes. Returns the C result and the new server state. -/
def nyx_httpd_route (server : NyxHttpServer) (method path : Option String)
    (handler : Option Nat) (user_data : Nat) : Int × NyxHttpServer :=
  match method, path, handler with
  | some m, some p, some h =>
    if server.routes.length ≥ MAX_ROUTES then (-1, server)
    else (0, { server with
               routes := server.routes ++ [⟨ctrunc m 15, ctrunc p 255, h, user_data⟩] })
  | _, _, _ => (-1, server)

/-- nyx_httpd_middleware (nyx_httpd.c:420-429). -/
def nyx_httpd_middleware (server : NyxHttpServer) (middleware : Option Nat)
    (user_data : Nat) : Int × NyxHttpServer :=
  match middleware with
  | some h =>
    if server.middlewares.length ≥ MAX_MIDDLEWARE then (-1, server)
    else (0, { server with middlewares := server.middlewares ++ [⟨h, user_data⟩] })
  | none => (-1, server)

/-- A registration call, for reasoning about arbitrary operation sequences. -/
inductive ServerOp where
  | route (method path : Option String) (handler : Option Nat) (user_data : Nat)
  | middleware (handler : Option Nat) (user_data : Nat)
deriving DecidableEq, Repr

/-- Apply one registration call, keeping the resulting state. -/
def applyOp (server : NyxHttpServer) : ServerOp → NyxHttpServer
  | ServerOp.route m p h u => (nyx_httpd_route server m p h u).2
  | ServerOp.middleware h u => (nyx_httpd_middleware server h u).2

/-- Apply a sequence of registration calls. -/
def applyOps (server : NyxHttpServer) : List ServerOp → NyxHttpServer
  | [] => server
  | op :: ops => applyOps (applyOp server op) ops

/-!  The per-connection pipeline (handle_client, nyx_httpd.c:465-563). -/

/-- Undefined behavior reachable in handle_client: strcmp/strstr applied to a
NULL (or otherwise invalid) pointer. -/
inductive Crash where
  | nullDeref : Crash
deriving DecidableEq, Repr

/-- Observable pipeline events: a middleware call (loop index, handler,
user data) or a route handler call (route index, handler, user data). -/
inductive Event where
  | middlewareCall (idx : Nat) (handler : Nat) (user_data : Nat) : Event
  | handlerCall (routeIdx : Nat) (handler : Nat) (user_data : Nat) : Event
deriving DecidableEq, Repr

/-- A handler interpretation: given the handler identifier, the user data,
the request, and the current (response, static error buffer) state, produce
the new state. C handlers return void; their only effect visible to the
pipeline is mutation of the response (and, possibly, of the static error
buffer via nyx_http_response_error). -/
def HandlerSem : Type :=
  Nat → Nat → NyxHttpRequest → NyxHttpResponse × String → NyxHttpResponse × String

/-- atoi on the Content-Length header value (nyx_httpd.c:524): optional
leading whitespace and sign, then a digit prefix, 0 when there is none.
The int result is stored into a size_t field, hence the 2^64 wraparound. -/
def atoiModel (s : String) : Int :=
  let t := s.data.dropWhile (fun c =>
    c == ' ' || c == '\x09' || c == '\x0a' || c == '\x0b' || c == '\x0c' || c == '\x0d')
  let digitsVal : List Char → Int :=
    fun ds => ds.foldl (fun acc c => acc * 10 + ((c.toNat : Int) - 48)) 0
  match t with
  | '-' :: ds => -(digitsVal (ds.takeWhile Char.isDigit))
  | '+' :: ds => digitsVal (ds.takeWhile Char.isDigit)
  | ds => digitsVal (ds.takeWhile Char.isDigit)

/-- Store of one parsed header line (nyx_httpd.c:512-527): append when under
MAX_HEADERS (strcpy, no truncation — parse_header already bounded the
fields), and mirror Host / Content-Type / Content-Length into the dedicated
request fields, the last through atoi into a size_t. -/
def storeHeader (line : String) (req : NyxHttpRequest) : NyxHttpRequest :=
  match parse_header line with
  | none => req
  | some hdr =>
    if req.headers.headers.length < MAX_HEADERS then
      let req1 := { req with headers := ⟨req.headers.headers ++ [hdr]⟩ }
      if strcaseEq hdr.name "Host" then { req1 with host := some hdr.value }
      else if strcaseEq hdr.name "Content-Type" then
        { req1 with content_type := some hdr.value }
      else if strcaseEq hdr.name "Content-Length" then
        { req1 with content_length := (atoiModel hdr.value) % (2 ^ 64) }
      else req1
    else req

/-- The header loop of handle_client (nyx_httpd.c:507-529): consume
CRLF-terminated lines until a blank line or until no CRLF remains. The fuel
argument only serves structural recursion; `buf.length + 1` never runs out
because each iteration removes at least the two CRLF bytes. -/
def parseHeaderLoop : Nat → List Char → NyxHttpRequest → NyxHttpRequest
  | 0, _, req => req
  | fuel + 1, buf, req =>
    match splitCRLF buf with
    | none => req
    | some (line, rest) =>
      if line = [] then req
      else parseHeaderLoop fuel rest (storeHeader (String.mk line) req)

/-- The middleware loop of handle_client (nyx_httpd.c:531-534), with the
running loop index, emitting one event per call. -/
def runMiddlewares (msem : HandlerSem) (req : NyxHttpRequest) :
    Nat → List Middleware → NyxHttpResponse × String →
    List Event × (NyxHttpResponse × String)
  | _, [], st => ([], st)
  | idx, mw :: rest, st =>
    let st1 := msem mw.handler mw.user_data req st
    let (evs, st2) := runMiddlewares msem req (idx + 1) rest st1
    (Event.middlewareCall idx mw.handler mw.user_data :: evs, st2)

/-- The match test of the route loop (nyx_httpd.c:540-541):
`strcmp(route->method, m) == 0 && strcmp(route->path, p) == 0`. -/
def routeMatchesB (route : HttpRoute) (m p : String) : Bool :=
  route.method == m && route.path == p

/-- The route loop plus default-404 of handle_client (nyx_httpd.c:536-551):
scan the routes in order; the C `strcmp` against a request method or path
left NULL by a parse failure is undefined behavior, reported as a crash.
The first match invokes exactly that route's handler; if the scan completes
unmatched, nyx_http_response_error synthesizes the 404. -/
def routePhaseAux (hsem : HandlerSem) (req : NyxHttpRequest) :
    Nat → List HttpRoute → NyxHttpResponse × String →
    List Event × Except Crash (NyxHttpResponse × String)
  | _, [], (resp, _) =>
    ([], Except.ok ((nyx_http_response_error resp 404 (some "Not Found")).2,
                    (nyx_http_response_error resp 404 (some "Not Found")).1))
  | idx, route :: rest, st =>
    match req.method with
    | none => ([], Except.error Crash.nullDeref)
    | some m =>
      if route.method == m then
        match req.path with
        | none => ([], Except.error Crash.nullDeref)
        | some p =>
          if route.path == p then
            ([Event.handlerCall idx route.handler route.user_data],
             Except.ok (hsem route.handler route.user_data req st))
          else routePhaseAux hsem req (idx + 1) rest st
      else routePhaseAux hsem req (idx + 1) rest st

/-- Route dispatch from the head of the table. -/
def routePhase (hsem : HandlerSem) (req : NyxHttpRequest)
    (routes : List HttpRoute) (st : NyxHttpResponse × String) :
    List Event × Except Crash (NyxHttpResponse × String) :=
  routePhaseAux hsem req 0 routes st

/-- Outcome of one handle_client run: the events, the request as it stood
when the run ended, and either the final (response, error-buffer) state or
the crash that undefined behavior would produce. -/
structure PR where
  events : List Event
  req : NyxHttpRequest
  result : Except Crash (NyxHttpResponse × String)
deriving Repr

/-- handle_client (nyx_httpd.c:465-563) after a successful read and
request/response allocation: isolate the request line at the first CRLF
(when the buffer has none, `line_end` is NULL and the header loop's
`strstr(line_end + 2, ...)` is undefined behavior); parse it, leaving the
request fields NULL on failure; parse headers; run every middleware; then
dispatch. `msem` interprets middleware handlers, `hsem` route handlers;
`errBuf` is the static error buffer's prior content. `requestOf` is the
request as it stands after the PARSE stage (nyx_httpd.c:491-529), given the
split at the first CRLF. -/
def requestOf (line1 rest : List Char) (client_addr : String)
    (client_port : Nat) : NyxHttpRequest :=
  let req0 := { create_request with remote_addr := some client_addr,
                                    remote_port := client_port }
  let req1 :=
    match parse_request_line (String.mk line1) with
    | some rl => { req0 with method := some rl.method, path := some rl.path,
                             query_string := some rl.query,
                             protocol := some rl.protocol }
    | none => req0
  parseHeaderLoop (rest.length + 1) rest req1

def handle_client (server : NyxHttpServer) (buffer : String)
    (msem hsem : HandlerSem) (errBuf : String)
    (client_addr : String) (client_port : Nat) : PR :=
  match splitCRLF buffer.data with
  | none => ⟨[], { create_request with remote_addr := some client_addr,
                                       remote_port := client_port },
             Except.error Crash.nullDeref⟩
  | some (line1, rest) =>
    let req2 := requestOf line1 rest client_addr client_port
    let mr := runMiddlewares msem req2 0 server.middlewares (create_response, errBuf)
    let rr := routePhase hsem req2 server.routes mr.2
    ⟨mr.1 ++ rr.1, req2, rr.2⟩

/-- The header block assembled by send_response (nyx_httpd.c:431-452):
status line, each stored header, the computed Content-Length line, blank
line. The C code accumulates it with snprintf into an 8KB buffer. -/
def renderHead (resp : NyxHttpResponse) : String :=
  "HTTP/1.1 " ++ toString resp.status_code ++ " " ++ resp.status_text.getD "OK"
    ++ "\x0d\x0a"
    ++ String.join (resp.headers.headers.map
         (fun h => h.name ++ ": " ++ h.value ++ "\x0d\x0a"))
    ++ "Content-Length: " ++ toString resp.body_length ++ "\x0d\x0a\x0d\x0a"

/-- send_response (nyx_httpd.c:431-463): two socket writes, the header block
then the body. `none` marks the runs the C code does not complete cleanly:
a header block that does not fit the 8KB buffer (snprintf truncation followed
by an out-of-bounds length), or a body write whose `body_length` exceeds the
bytes actually behind the body pointer (out-of-bounds read). The body write
is skipped when the body is NULL or `body_length` is zero. -/
def send_response (errBuf : String) (resp : NyxHttpResponse) :
    Option (String × String) :=
  let head := renderHead resp
  if head.length ≤ BUFFER_SIZE - 1 then
    match resolveBody errBuf resp.body with
    | none => some (head, "")
    | some s =>
      if resp.body_length = 0 then some (head, "")
      else if resp.body_length ≤ s.length then
        some (head, String.mk (s.data.take resp.body_length))
      else none
  else none

/-!  Shared lemmas. -/

/-- `strchr` finds the first occurrence: splitting `a ++ c :: b` at `c` when
`c` does not occur in `a` yields `(a, b)`. -/
theorem splitAtChar_append (c : Char) (a b : List Char) (h : c ∉ a) :
    splitAtChar c (a ++ c :: b) = some (a, b) := by
  induction a with
  | nil => simp [splitAtChar]
  | cons x xs ih =>
    have hx : x ≠ c := fun hxc => h (hxc ▸ List.mem_cons_self x xs)
    have hxs : c ∉ xs := fun hm => h (List.mem_cons_of_mem x hm)
    simp [splitAtChar, hx, ih hxs]

/-- `ctrunc` to a bound at least the length is the identity. -/
theorem ctrunc_of_le (s : String) (n : Nat) (h : s.length ≤ n) : ctrunc s n = s := by
  cases s with
  | mk data =>
    simp only [ctrunc, String.length] at h ⊢
    exact congrArg String.mk (List.take_of_length_le h)

/-- `ctrunc` to a bound below the length changes the string. -/
theorem ctrunc_ne_of_lt (s : String) (n : Nat) (h : n < s.length) : ctrunc s n ≠ s := by
  intro he
  have hl : (ctrunc s n).length = s.length := congrArg String.length he
  cases s with
  | mk data =>
    simp [ctrunc, String.length] at hl h
    omega

/-- `findHeader` is the first case-insensitive match, as a `List.find?`. -/
theorem findHeader_eq_find (hs : List HttpHeader) (n : String) :
    findHeader hs n = (hs.find? (fun h => strcaseEq h.name n)).map HttpHeader.value := by
  induction hs with
  | nil => rfl
  | cons h t ih =>
    by_cases hc : strcaseEq h.name n
    · simp [findHeader, List.find?, hc]
    · simp only [Bool.not_eq_true] at hc
      simp [findHeader, List.find?, hc, ih]

/-- `findHeader` over an append scans the first part first. -/
theorem findHeader_append (a b : List HttpHeader) (n : String) :
    findHeader (a ++ b) n =
      match findHeader a n with
      | some v => some v
      | none => findHeader b n := by
  induction a with
  | nil => rfl
  | cons h t ih =>
    by_cases hc : strcaseEq h.name n
    · simp [findHeader, hc]
    · simp only [Bool.not_eq_true] at hc
      simp [findHeader, hc, ih]

/-- `strcaseEq` is reflexive. -/
theorem strcaseEq_refl (s : String) : strcaseEq s s = true := by
  simp [strcaseEq]

/-- `storeHeader` never touches the request line fields. -/
theorem storeHeader_fields (line : String) (req : NyxHttpRequest) :
    (storeHeader line req).method = req.method ∧
    (storeHeader line req).path = req.path ∧
    (storeHeader line req).query_string = req.query_string ∧
    (storeHeader line req).protocol = req.protocol := by
  unfold storeHeader
  cases parse_header line with
  | none => exact ⟨rfl, rfl, rfl, rfl⟩
  | some hdr =>
    by_cases hcap : req.headers.headers.length < MAX_HEADERS
    · simp only [hcap, if_true]
      by_cases h1 : strcaseEq hdr.name "Host" <;>
        by_cases h2 : strcaseEq hdr.name "Content-Type" <;>
          by_cases h3 : strcaseEq hdr.name "Content-Length" <;>
            simp [h1, h2, h3]
    · simp [hcap]

/-- The header loop never touches the request line fields. -/
theorem parseHeaderLoop_fields (fuel : Nat) :
    ∀ (buf : List Char) (req : NyxHttpRequest),
    (parseHeaderLoop fuel buf req).method = req.method ∧
    (parseHeaderLoop fuel buf req).path = req.path ∧
    (parseHeaderLoop fuel buf req).query_string = req.query_string ∧
    (parseHeaderLoop fuel buf req).protocol = req.protocol := by
  induction fuel with
  | zero => intro buf req; exact ⟨rfl, rfl, rfl, rfl⟩
  | succ fuel ih =>
    intro buf req
    unfold parseHeaderLoop
    cases hs : splitCRLF buf with
    | none => exact ⟨rfl, rfl, rfl, rfl⟩
    | some lr =>
      obtain ⟨line, rest⟩ := lr
      by_cases hl : line = []
      · simp [hl]
      · simp only [hl, if_false]
        obtain ⟨h1, h2, h3, h4⟩ := ih rest (storeHeader (String.mk line) req)
        obtain ⟨g1, g2, g3, g4⟩ := storeHeader_fields (String.mk line) req
        exact ⟨h1.trans g1, h2.trans g2, h3.trans g3, h4.trans g4⟩

/-- The middleware-call events that the spec prescribes: one event per
registered middleware, in registration order, indices starting at `i`. -/
def mwEventsFrom : Nat → List Middleware → List Event
  | _, [] => []
  | i, mw :: rest => Event.middlewareCall i mw.handler mw.user_data :: mwEventsFrom (i + 1) rest

/-- The middleware loop emits exactly the prescribed events, regardless of
the handler interpretation and of the response state. -/
theorem runMiddlewares_events (msem : HandlerSem) (req : NyxHttpRequest) :
    ∀ (mws : List Middleware) (i : Nat) (st : NyxHttpResponse × String),
    (runMiddlewares msem req i mws st).1 = mwEventsFrom i mws := by
  intro mws
  induction mws with
  | nil => intro i st; rfl
  | cons mw rest ih =>
    intro i st
    simp [runMiddlewares, mwEventsFrom, ih]

/-- The first matching route per the spec: linear scan in registration
order, first route whose method and path both string-equal the request's. -/
def specFirstMatch (m p : String) : Nat → List HttpRoute → Option (Nat × HttpRoute)
  | _, [] => none
  | i, r :: rest =>
    if routeMatchesB r m p then some (i, r) else specFirstMatch m p (i + 1) rest

/-- When the request line parsed (method and path non-NULL), the route loop
is exactly: invoke the handler of the first matching route, or synthesize
the 404 via nyx_http_response_error. -/
theorem routePhaseAux_spec (hsem : HandlerSem) (req : NyxHttpRequest)
    (m p : String) (hm : req.method = some m) (hp : req.path = some p) :
    ∀ (routes : List HttpRoute) (i : Nat) (st : NyxHttpResponse × String),
    routePhaseAux hsem req i routes st =
      match specFirstMatch m p i routes with
      | some (j, r) =>
        ([Event.handlerCall j r.handler r.user_data],
         Except.ok (hsem r.handler r.user_data req st))
      | none =>
        ([], Except.ok ((nyx_http_response_error st.1 404 (some "Not Found")).2,
                        (nyx_http_response_error st.1 404 (some "Not Found")).1)) := by
  intro routes
  induction routes with
  | nil =>
    intro i st
    obtain ⟨resp, eb⟩ := st
    simp [routePhaseAux, specFirstMatch]
  | cons route rest ih =>
    intro i st
    by_cases hme : route.method == m
    · by_cases hpe : route.path == p
      · simp [routePhaseAux, specFirstMatch, routeMatchesB, hm, hp, hme, hpe]
      · simp only [Bool.not_eq_true] at hpe
        simp [routePhaseAux, specFirstMatch, routeMatchesB, hm, hp, hme, hpe, ih]
    · simp only [Bool.not_eq_true] at hme
      simp [routePhaseAux, specFirstMatch, routeMatchesB, hm, hp, hme, ih]

/-- The route loop emits no middleware events. -/
theorem routePhaseAux_no_mw (hsem : HandlerSem) (req : NyxHttpRequest) :
    ∀ (routes : List HttpRoute) (i : Nat) (st : NyxHttpResponse × String)
      (j h u : Nat),
    Event.middlewareCall j h u ∉ (routePhaseAux hsem req i routes st).1 := by
  intro routes
  induction routes with
  | nil =>
    intro i st j h u
    obtain ⟨resp, eb⟩ := st
    simp [routePhaseAux]
  | cons route rest ih =>
    intro i st j h u
    cases hm : req.method with
    | none => simp [routePhaseAux, hm]
    | some m =>
      by_cases hme : route.method == m
      · cases hp : req.path with
        | none => simp [routePhaseAux, hm, hme, hp]
        | some p =>
          by_cases hpe : route.path == p
          · simp [routePhaseAux, hm, hme, hp, hpe]
          · simp only [Bool.not_eq_true] at hpe
            simp only [routePhaseAux, hm, hme, hp, hpe, if_true, if_false]
            exact ih (i + 1) st j h u
      · simp only [Bool.not_eq_true] at hme
        simp only [routePhaseAux, hm, hme, if_false]
        exact ih (i + 1) st j h u

/-- The route loop's events and crash/no-crash outcome do not depend on the
handler interpretation or on the response state. -/
theorem routePhaseAux_ctrl (hsem hsem2 : HandlerSem) (req : NyxHttpRequest) :
    ∀ (routes : List HttpRoute) (i : Nat) (st st2 : NyxHttpResponse × String),
    (routePhaseAux hsem req i routes st).1 = (routePhaseAux hsem2 req i routes st2).1 ∧
    (routePhaseAux hsem req i routes st).2.isOk
      = (routePhaseAux hsem2 req i routes st2).2.isOk := by
  intro routes
  induction routes with
  | nil =>
    intro i st st2
    obtain ⟨r1, e1⟩ := st
    obtain ⟨r2, e2⟩ := st2
    simp [routePhaseAux, Except.isOk, Except.toBool]
  | cons route rest ih =>
    intro i st st2
    cases hm : req.method with
    | none => simp [routePhaseAux, hm]
    | some m =>
      by_cases hme : route.method == m
      · cases hp : req.path with
        | none => simp [routePhaseAux, hm, hme, hp]
        | some p =>
          by_cases hpe : route.path == p
          · simp [routePhaseAux, hm, hme, hp, hpe, Except.isOk, Except.toBool]
          · simp only [Bool.not_eq_true] at hpe
            simp only [routePhaseAux, hm, hme, hp, hpe, if_true, if_false]
            exact ih (i + 1) st st2
      · simp only [Bool.not_eq_true] at hme
        simp only [routePhaseAux, hm, hme, if_false]
        exact ih (i + 1) st st2

/-!  Claim theorems. -/

/-- C9: all error pages share the one static 1KB buffer. After
`error(r1, s1, m1); error(r2, s2, m2)` (the buffer after the second call is
`(nyx_http_response_error r2 s2 m2).1`), both responses' bodies are the
static-buffer pointer, and both dereference to the page rendered for
`(s2, m2)`: the later call overwrites the body observed through the earlier
response. The pipeline's internal 404 goes through the same function
(see `routePhaseAux`). -/
theorem c9_error_buffer_shared (r1 r2 : NyxHttpResponse) (s1 s2 : Int)
    (m1 m2 : Option String) :
    (nyx_http_response_error r1 s1 m1).2.body = Body.errorBuf ∧
    (nyx_http_response_error r2 s2 m2).2.body = Body.errorBuf ∧
    resolveBody (nyx_http_response_error r2 s2 m2).1
        (nyx_http_response_error r1 s1 m1).2.body = some (renderErrorPage s2 m2) ∧
    resolveBody (nyx_http_response_error r2 s2 m2).1
        (nyx_http_response_error r1 s1 m1).2.body
      = resolveBody (nyx_http_response_error r2 s2 m2).1
          (nyx_http_response_error r2 s2 m2).2.body := by
  refine ⟨rfl, rfl, rfl, rfl⟩

/-- C10: route registration does not enforce the request-side field bounds.
With capacity left and non-NULL arguments, `nyx_httpd_route` succeeds for
every method/path, storing only the strncpy-truncated prefixes (15 and 255
bytes); when the method exceeds 15 bytes or the path 255, the stored strings
differ from the originals, and the stored route passes the dispatch match
test (`routeMatchesB`, the strcmp pair of the route loop) against the
truncated prefixes but never against the original strings. -/
theorem c10_route_truncation (server : NyxHttpServer) (m p : String) (h u : Nat)
    (hcap : server.routes.length < MAX_ROUTES) :
    nyx_httpd_route server (some m) (some p) (some h) u
      = (0, { server with
              routes := server.routes ++ [⟨ctrunc m 15, ctrunc p 255, h, u⟩] }) ∧
    (15 < m.length → ctrunc m 15 ≠ m) ∧
    (255 < p.length → ctrunc p 255 ≠ p) ∧
    routeMatchesB ⟨ctrunc m 15, ctrunc p 255, h, u⟩ (ctrunc m 15) (ctrunc p 255) = true ∧
    ((15 < m.length ∨ 255 < p.length) →
      routeMatchesB ⟨ctrunc m 15, ctrunc p 255, h, u⟩ m p = false) := by
  refine ⟨?_, fun hl => ctrunc_ne_of_lt m 15 hl, fun hl => ctrunc_ne_of_lt p 255 hl, ?_, ?_⟩
  · simp [nyx_httpd_route, Nat.not_le_of_lt hcap]
  · simp [routeMatchesB]
  · rintro (hl | hl)
    · have : (ctrunc m 15 == m) = false := beq_eq_false_iff_ne.mpr (ctrunc_ne_of_lt m 15 hl)
      simp [routeMatchesB, this]
    · have : (ctrunc p 255 == p) = false := beq_eq_false_iff_ne.mpr (ctrunc_ne_of_lt p 255 hl)
      simp [routeMatchesB, this]

/-- C10 witness: a 16-byte method and a 256-byte path at a concrete server. -/
theorem c10_route_truncation_witness :
    nyx_httpd_route nyx_httpd_create (some "ABCDEFGHIJKLMNOP")
        (some (String.mk (List.replicate 256 'a'))) (some 3) 4
      = (0, { nyx_httpd_create with
              routes := nyx_httpd_create.routes
                ++ [⟨ctrunc "ABCDEFGHIJKLMNOP" 15,
                     ctrunc (String.mk (List.replicate 256 'a')) 255, 3, 4⟩] }) ∧
    (15 < "ABCDEFGHIJKLMNOP".length → ctrunc "ABCDEFGHIJKLMNOP" 15 ≠ "ABCDEFGHIJKLMNOP") ∧
    (255 < (String.mk (List.replicate 256 'a')).length →
      ctrunc (String.mk (List.replicate 256 'a')) 255 ≠ String.mk (List.replicate 256 'a')) ∧
    routeMatchesB ⟨ctrunc "ABCDEFGHIJKLMNOP" 15,
        ctrunc (String.mk (List.replicate 256 'a')) 255, 3, 4⟩
        (ctrunc "ABCDEFGHIJKLMNOP" 15)
        (ctrunc (String.mk (List.replicate 256 'a')) 255) = true ∧
    ((15 < "ABCDEFGHIJKLMNOP".length ∨ 255 < (String.mk (List.replicate 256 'a')).length) →
      routeMatchesB ⟨ctrunc "ABCDEFGHIJKLMNOP" 15,
          ctrunc (String.mk (List.replicate 256 'a')) 255, 3, 4⟩
          "ABCDEFGHIJKLMNOP" (String.mk (List.replicate 256 'a')) = false) :=
  c10_route_truncation nyx_httpd_create "ABCDEFGHIJKLMNOP"
    (String.mk (List.replicate 256 'a')) 3 4 (by decide)

/-- The registry-capacity invariant of C3. -/
def serverInv (s : NyxHttpServer) : Prop :=
  s.routes.length ≤ MAX_ROUTES ∧ s.middlewares.length ≤ MAX_MIDDLEWARE

/-- One registration call preserves the capacity invariant. -/
theorem applyOp_inv (server : NyxHttpServer) (op : ServerOp)
    (h : serverInv server) : serverInv (applyOp server op) := by
  obtain ⟨h1, h2⟩ := h
  cases op with
  | route m p hd u =>
    match m, p, hd with
    | some m, some p, some hd =>
      by_cases hc : server.routes.length ≥ MAX_ROUTES
      · simpa [applyOp, nyx_httpd_route, hc] using ⟨h1, h2⟩
      · refine ⟨?_, by simpa [applyOp, nyx_httpd_route, hc] using h2⟩
        simp only [applyOp, nyx_httpd_route, hc, if_false]
        simp only [List.length_append, List.length_cons, List.length_nil]
        omega
    | none, _, _ => exact ⟨h1, h2⟩
    | some _, none, _ => exact ⟨h1, h2⟩
    | some _, some _, none => exact ⟨h1, h2⟩
  | middleware hd u =>
    match hd with
    | some hd =>
      by_cases hc : server.middlewares.length ≥ MAX_MIDDLEWARE
      · simpa [applyOp, nyx_httpd_middleware, hc] using ⟨h1, h2⟩
      · refine ⟨by simpa [applyOp, nyx_httpd_middleware, hc] using h1, ?_⟩
        simp only [applyOp, nyx_httpd_middleware, hc, if_false]
        simp only [List.length_append, List.length_cons, List.length_nil]
        omega
    | none => exact ⟨h1, h2⟩

/-- Any sequence of registration calls preserves the capacity invariant. -/
theorem applyOps_inv (ops : List ServerOp) :
    ∀ (server : NyxHttpServer), serverInv server → serverInv (applyOps server ops) := by
  induction ops with
  | nil => intro server h; exact h
  | cons op rest ih => intro server h; exact ih _ (applyOp_inv server op h)

/-- C3: registering a 257th route or a 33rd middleware fails and leaves the
registry (entries and count) unchanged; consequently, starting from any
state within capacity — in particular from `nyx_httpd_create` — no sequence
of registration calls pushes the route count past 256 or the middleware
count past 32. -/
theorem c3_capacity (server : NyxHttpServer) (m p : Option String)
    (h : Option Nat) (u : Nat) (mh : Option Nat) (mu : Nat) (ops : List ServerOp)
    (hr : server.routes.length = 256) (hm : server.middlewares.length = 32) :
    nyx_httpd_route server m p h u = (-1, server) ∧
    nyx_httpd_middleware server mh mu = (-1, server) ∧
    (∀ s, serverInv s → serverInv (applyOps s ops)) ∧
    serverInv (applyOps nyx_httpd_create ops) := by
  refine ⟨?_, ?_, fun s hs => applyOps_inv ops s hs, applyOps_inv ops nyx_httpd_create (by simp [nyx_httpd_create, serverInv, MAX_ROUTES, MAX_MIDDLEWARE])⟩
  · match m, p, h with
    | some m, some p, some h =>
      have hge : server.routes.length ≥ MAX_ROUTES := by
        simp only [MAX_ROUTES]; omega
      simp [nyx_httpd_route, hge]
    | none, _, _ => rfl
    | some _, none, _ => rfl
    | some _, some _, none => rfl
  · match mh with
    | some mh =>
      have hge : server.middlewares.length ≥ MAX_MIDDLEWARE := by
        simp only [MAX_MIDDLEWARE]; omega
      simp [nyx_httpd_middleware, hge]
    | none => rfl

/-- C3 witness: a server holding exactly 256 routes and 32 middleware
entries rejects further registrations unchanged, and the create state stays
within capacity under a concrete operation sequence. -/
theorem c3_capacity_witness :
    nyx_httpd_route ⟨List.replicate 256 ⟨"GET", "/", 0, 0⟩, List.replicate 32 ⟨0, 0⟩⟩
        (some "GET") (some "/x") (some 1) 0
      = (-1, ⟨List.replicate 256 ⟨"GET", "/", 0, 0⟩, List.replicate 32 ⟨0, 0⟩⟩) ∧
    nyx_httpd_middleware ⟨List.replicate 256 ⟨"GET", "/", 0, 0⟩, List.replicate 32 ⟨0, 0⟩⟩
        (some 9) 0
      = (-1, ⟨List.replicate 256 ⟨"GET", "/", 0, 0⟩, List.replicate 32 ⟨0, 0⟩⟩) ∧
    (∀ s, serverInv s →
      serverInv (applyOps s [ServerOp.route (some "GET") (some "/") (some 1) 0,
                             ServerOp.middleware (some 2) 0])) ∧
    serverInv (applyOps nyx_httpd_create
      [ServerOp.route (some "GET") (some "/") (some 1) 0,
       ServerOp.middleware (some 2) 0]) :=
  c3_capacity ⟨List.replicate 256 ⟨"GET", "/", 0, 0⟩, List.replicate 32 ⟨0, 0⟩⟩
    (some "GET") (some "/x") (some 1) 0 (some 9) 0
    [ServerOp.route (some "GET") (some "/") (some 1) 0,
     ServerOp.middleware (some 2) 0]
    (by simp) (by simp)

/-- C5: `findHeader` (the scan of nyx_http_request_get_header) returns the
value of the first entry whose name matches case-insensitively, or none; and
`headerDictSet` (the append of nyx_http_response_set_header) never updates
in place, so setting the same name twice (within capacity and field bounds)
yields two entries and lookup still returns the earliest one. -/
theorem c5_header_container (hs : List HttpHeader) (dict : HttpHeaderDict)
    (n v1 v2 : String) (hcap : dict.headers.length + 2 ≤ MAX_HEADERS)
    (hn : ctrunc n 127 = n) (hv1 : ctrunc v1 511 = v1) (hv2 : ctrunc v2 511 = v2) :
    findHeader hs n = (hs.find? (fun h => strcaseEq h.name n)).map HttpHeader.value ∧
    (headerDictSet (headerDictSet dict n v1) n v2).headers
      = dict.headers ++ [⟨n, v1⟩, ⟨n, v2⟩] ∧
    (findHeader dict.headers n = none →
      findHeader (headerDictSet (headerDictSet dict n v1) n v2).headers n = some v1) := by
  have hset : (headerDictSet (headerDictSet dict n v1) n v2).headers
      = dict.headers ++ [⟨n, v1⟩, ⟨n, v2⟩] := by
    have hcap2 : dict.headers.length + 2 ≤ 64 := by simpa [MAX_HEADERS] using hcap
    have h1 : ¬ MAX_HEADERS ≤ dict.headers.length := by
      simp only [MAX_HEADERS]; omega
    have h2 : ¬ MAX_HEADERS ≤ dict.headers.length + 1 := by
      simp only [MAX_HEADERS]; omega
    simp [headerDictSet, h1, h2, hn, hv1, hv2]
  refine ⟨findHeader_eq_find hs n, hset, fun hnone => ?_⟩
  rw [hset, findHeader_append]
  simp [hnone, findHeader, strcaseEq_refl]

/-- C5 witness: setting Content-Type twice on an empty container. -/
theorem c5_header_container_witness :
    findHeader [⟨"X", "1"⟩] "Content-Type"
      = (([⟨"X", "1"⟩] : List HttpHeader).find?
          (fun h => strcaseEq h.name "Content-Type")).map HttpHeader.value ∧
    (headerDictSet (headerDictSet ⟨[]⟩ "Content-Type" "text/html") "Content-Type" "text/css").headers
      = ([] : List HttpHeader) ++ [⟨"Content-Type", "text/html"⟩, ⟨"Content-Type", "text/css"⟩] ∧
    (findHeader [] "Content-Type" = none →
      findHeader (headerDictSet (headerDictSet ⟨[]⟩ "Content-Type" "text/html")
          "Content-Type" "text/css").headers "Content-Type" = some "text/html") :=
  c5_header_container [⟨"X", "1"⟩] ⟨[]⟩ "Content-Type" "text/html" "text/css"
    (by decide) (by decide) (by decide) (by decide)

/-- C2: with a parsed request (method and path non-NULL), route dispatch is
a linear scan in registration order invoking exactly the handler of the
first route whose method and path both string-equal the request's
(`specFirstMatch`); when no route matches, the pipeline synthesizes the 404
through nyx_http_response_error, whose HTML body contains the literal
string "Not Found". -/
theorem c2_route_dispatch (routes : List HttpRoute) (hsem : HandlerSem)
    (req : NyxHttpRequest) (m p : String) (resp : NyxHttpResponse) (eb : String)
    (hm : req.method = some m) (hp : req.path = some p) :
    routePhase hsem req routes (resp, eb) =
      (match specFirstMatch m p 0 routes with
       | some (j, r) =>
         ([Event.handlerCall j r.handler r.user_data],
          Except.ok (hsem r.handler r.user_data req (resp, eb)))
       | none =>
         ([], Except.ok ((nyx_http_response_error resp 404 (some "Not Found")).2,
                         (nyx_http_response_error resp 404 (some "Not Found")).1))) ∧
    (nyx_http_response_error resp 404 (some "Not Found")).2.status_code = 404 ∧
    resolveBody (nyx_http_response_error resp 404 (some "Not Found")).1
        (nyx_http_response_error resp 404 (some "Not Found")).2.body
      = some (renderErrorPage 404 (some "Not Found")) ∧
    "Not Found".data <:+: (renderErrorPage 404 (some "Not Found")).data := by
  refine ⟨routePhaseAux_spec hsem req m p hm hp routes 0 (resp, eb), rfl, rfl, ?_⟩
  decide

/-- C2 witness: a parsed GET / request against a two-route table. -/
theorem c2_route_dispatch_witness :
    routePhase (fun _ _ _ st => st)
        { create_request with method := some "GET", path := some "/" }
        [⟨"POST", "/", 1, 0⟩, ⟨"GET", "/", 2, 5⟩]
        (create_response, "") =
      (match specFirstMatch "GET" "/" 0 [⟨"POST", "/", 1, 0⟩, ⟨"GET", "/", 2, 5⟩] with
       | some (j, r) =>
         ([Event.handlerCall j r.handler r.user_data],
          Except.ok ((fun (_ _ : Nat) (_ : NyxHttpRequest)
            (st : NyxHttpResponse × String) => st) r.handler r.user_data
            { create_request with method := some "GET", path := some "/" }
            (create_response, "")))
       | none =>
         ([], Except.ok ((nyx_http_response_error create_response 404 (some "Not Found")).2,
                         (nyx_http_response_error create_response 404 (some "Not Found")).1))) ∧
    (nyx_http_response_error create_response 404 (some "Not Found")).2.status_code = 404 ∧
    resolveBody (nyx_http_response_error create_response 404 (some "Not Found")).1
        (nyx_http_response_error create_response 404 (some "Not Found")).2.body
      = some (renderErrorPage 404 (some "Not Found")) ∧
    "Not Found".data <:+: (renderErrorPage 404 (some "Not Found")).data :=
  c2_route_dispatch [⟨"POST", "/", 1, 0⟩, ⟨"GET", "/", 2, 5⟩] (fun _ _ _ st => st)
    { create_request with method := some "GET", path := some "/" }
    "GET" "/" create_response "" rfl rfl

/-- C4: when the body pointer dereferences to `b`, the stored body length is
exact, and the rendered header block fits the 8KB buffer, send_response
performs exactly two writes — the header block, then the body — and the
header block is the status line, every stored header, a Content-Length line
whose value is the exact byte length of the body, and a blank line. -/
theorem c4_serialization (errBuf : String) (resp : NyxHttpResponse) (b : String)
    (hb : resolveBody errBuf resp.body = some b)
    (hlen : resp.body_length = b.length)
    (hfit : (renderHead resp).length ≤ BUFFER_SIZE - 1) :
    send_response errBuf resp = some (renderHead resp, b) ∧
    renderHead resp
      = "HTTP/1.1 " ++ toString resp.status_code ++ " " ++ resp.status_text.getD "OK"
          ++ "\x0d\x0a"
          ++ String.join (resp.headers.headers.map
               (fun h => h.name ++ ": " ++ h.value ++ "\x0d\x0a"))
          ++ "Content-Length: " ++ toString b.length ++ "\x0d\x0a\x0d\x0a" := by
  constructor
  · simp only [send_response, hb, if_pos hfit]
    by_cases hz : resp.body_length = 0
    · have hb0 : b.length = 0 := by omega
      have : b = "" := by
        cases b with
        | mk bd =>
          simp only [String.length] at hb0
          simp [List.length_eq_zero.mp hb0]
      simp [hz, this]
    · have hle : resp.body_length ≤ b.length := by omega
      have htake : String.mk (b.data.take resp.body_length) = b := by
        rw [hlen]
        cases b with
        | mk bd => simp
      simp [hz, hle, htake]
  · rw [renderHead, hlen]

/-- C4 witness: the html builder on the 5-byte body "hello". -/
theorem c4_serialization_witness :
    send_response "" (nyx_http_response_html create_response 200 (some "hello"))
      = some (renderHead (nyx_http_response_html create_response 200 (some "hello")), "hello") ∧
    renderHead (nyx_http_response_html create_response 200 (some "hello"))
      = "HTTP/1.1 "
          ++ toString (nyx_http_response_html create_response 200 (some "hello")).status_code
          ++ " " ++ (nyx_http_response_html create_response 200 (some "hello")).status_text.getD "OK"
          ++ "\x0d\x0a"
          ++ String.join ((nyx_http_response_html create_response 200 (some "hello")).headers.headers.map
               (fun h => h.name ++ ": " ++ h.value ++ "\x0d\x0a"))
          ++ "Content-Length: " ++ toString "hello".length ++ "\x0d\x0a\x0d\x0a" :=
  c4_serialization "" (nyx_http_response_html create_response 200 (some "hello")) "hello"
    rfl rfl (by decide)

/-- C6: for every request whose buffer reaches the middleware stage (the
PARSE stage completes, i.e. the buffer contains a CRLF — a buffer without
one hits the header loop's NULL-pointer strstr first), every registered
middleware is invoked exactly once, in registration order
(`mwEventsFrom 0`), strictly before any route-handler event; and nothing a
middleware produces alters subsequent control flow: swapping the middleware
(and handler) interpretations and the initial error-buffer contents changes
neither the event sequence nor whether the run completes. This holds
whether the request line parsed or not and whether the request 404s or
not. -/
theorem c6_middleware_chain (server : NyxHttpServer) (buffer : String)
    (msem msem2 hsem hsem2 : HandlerSem) (eb eb2 ca : String) (cp : Nat)
    (l1 rest : List Char)
    (hsplit : splitCRLF buffer.data = some (l1, rest)) :
    (∃ revts, (handle_client server buffer msem hsem eb ca cp).events
        = mwEventsFrom 0 server.middlewares ++ revts ∧
        ∀ i h u, Event.middlewareCall i h u ∉ revts) ∧
    (handle_client server buffer msem2 hsem2 eb2 ca cp).events
      = (handle_client server buffer msem hsem eb ca cp).events ∧
    (handle_client server buffer msem2 hsem2 eb2 ca cp).result.isOk
      = (handle_client server buffer msem hsem eb ca cp).result.isOk := by
  simp only [handle_client, hsplit, routePhase]
  refine ⟨⟨(routePhaseAux hsem (requestOf l1 rest ca cp) 0 server.routes
      (runMiddlewares msem (requestOf l1 rest ca cp) 0 server.middlewares
        (create_response, eb)).2).1, ?_, ?_⟩, ?_, ?_⟩
  · rw [runMiddlewares_events]
  · intro i h u
    exact routePhaseAux_no_mw hsem (requestOf l1 rest ca cp) server.routes 0 _ i h u
  · rw [runMiddlewares_events, runMiddlewares_events,
        (routePhaseAux_ctrl hsem2 hsem (requestOf l1 rest ca cp) server.routes 0
          (runMiddlewares msem2 (requestOf l1 rest ca cp) 0 server.middlewares
            (create_response, eb2)).2
          (runMiddlewares msem (requestOf l1 rest ca cp) 0 server.middlewares
            (create_response, eb)).2).1]
  · exact (routePhaseAux_ctrl hsem2 hsem (requestOf l1 rest ca cp) server.routes 0
      (runMiddlewares msem2 (requestOf l1 rest ca cp) 0 server.middlewares
        (create_response, eb2)).2
      (runMiddlewares msem (requestOf l1 rest ca cp) 0 server.middlewares
        (create_response, eb)).2).2

/-- C6 witness: two middleware entries observe a request that 404s. -/
theorem c6_middleware_chain_witness :
    (∃ revts,
      (handle_client ⟨[], [⟨1, 0⟩, ⟨2, 0⟩]⟩ "GET /nope HTTP/1.1\x0d\x0a\x0d\x0a"
          (fun _ _ _ st => st) (fun _ _ _ st => st) "" "127.0.0.1" 80).events
        = mwEventsFrom 0 [⟨1, 0⟩, ⟨2, 0⟩] ++ revts ∧
        ∀ i h u, Event.middlewareCall i h u ∉ revts) ∧
    (handle_client ⟨[], [⟨1, 0⟩, ⟨2, 0⟩]⟩ "GET /nope HTTP/1.1\x0d\x0a\x0d\x0a"
        (fun _ _ _ st => ({ st.1 with close_connection := true }, st.2))
        (fun _ _ _ st => st) "seed" "127.0.0.1" 80).events
      = (handle_client ⟨[], [⟨1, 0⟩, ⟨2, 0⟩]⟩ "GET /nope HTTP/1.1\x0d\x0a\x0d\x0a"
          (fun _ _ _ st => st) (fun _ _ _ st => st) "" "127.0.0.1" 80).events ∧
    (handle_client ⟨[], [⟨1, 0⟩, ⟨2, 0⟩]⟩ "GET /nope HTTP/1.1\x0d\x0a\x0d\x0a"
        (fun _ _ _ st => ({ st.1 with close_connection := true }, st.2))
        (fun _ _ _ st => st) "seed" "127.0.0.1" 80).result.isOk
      = (handle_client ⟨[], [⟨1, 0⟩, ⟨2, 0⟩]⟩ "GET /nope HTTP/1.1\x0d\x0a\x0d\x0a"
          (fun _ _ _ st => st) (fun _ _ _ st => st) "" "127.0.0.1" 80).result.isOk :=
  c6_middleware_chain ⟨[], [⟨1, 0⟩, ⟨2, 0⟩]⟩ "GET /nope HTTP/1.1\x0d\x0a\x0d\x0a"
    (fun _ _ _ st => ({ st.1 with close_connection := true }, st.2))
    (fun _ _ _ st => st) (fun _ _ _ st => st) (fun _ _ _ st => st)
    "seed" "" "127.0.0.1" 80 "GET /nope HTTP/1.1".data "\x0d\x0a".data rfl

/-- C1 counterexample: the buffer "junk\r\n\r\n" has a request line with no
space, so parse_request_line fails and the request's method/path/protocol
stay NULL; with one route registered, the route loop then runs
`strcmp(route->method, NULL)` — the pipeline does NOT tolerate the unset
method/path: it hits undefined behavior instead of synthesizing a
response. -/
theorem c1_counterexample :
    (handle_client ⟨[⟨"GET", "/", 7, 0⟩], []⟩ "junk\x0d\x0a\x0d\x0a"
        (fun _ _ _ st => st) (fun _ _ _ st => st) "" "127.0.0.1" 80).result
      = Except.error Crash.nullDeref ∧
    (handle_client ⟨[⟨"GET", "/", 7, 0⟩], []⟩ "junk\x0d\x0a\x0d\x0a"
        (fun _ _ _ st => st) (fun _ _ _ st => st) "" "127.0.0.1" 80).req.method
      = none ∧
    (handle_client ⟨[⟨"GET", "/", 7, 0⟩], []⟩ "junk\x0d\x0a\x0d\x0a"
        (fun _ _ _ st => st) (fun _ _ _ st => st) "" "127.0.0.1" 80).req.path
      = none := ⟨rfl, rfl, rfl⟩

/-- C1 (amended): for every buffer that contains a CRLF but whose request
line cannot be parsed, the request's method, path and protocol remain unset
(NULL); when NO route is registered the rest of the pipeline tolerates this
and synthesizes the 404 response, but when at least one route is registered
the route-matching strcmp receives the NULL method and the pipeline crashes
(undefined behavior) instead of proceeding. -/
theorem c1_amended (server : NyxHttpServer) (buffer : String)
    (msem hsem : HandlerSem) (eb ca : String) (cp : Nat) (l1 rest : List Char)
    (hsplit : splitCRLF buffer.data = some (l1, rest))
    (hfail : parse_request_line (String.mk l1) = none) :
    (handle_client server buffer msem hsem eb ca cp).req.method = none ∧
    (handle_client server buffer msem hsem eb ca cp).req.path = none ∧
    (handle_client server buffer msem hsem eb ca cp).req.protocol = none ∧
    (server.routes = [] →
      ∃ r e, (handle_client server buffer msem hsem eb ca cp).result
          = Except.ok (r, e) ∧
        r.status_code = 404 ∧
        resolveBody e r.body = some (renderErrorPage 404 (some "Not Found"))) ∧
    (server.routes ≠ [] →
      (handle_client server buffer msem hsem eb ca cp).result
        = Except.error Crash.nullDeref) := by
  have hm : (requestOf l1 rest ca cp).method = none := by
    simp only [requestOf, hfail]
    exact ((parseHeaderLoop_fields (rest.length + 1) rest _).1).trans rfl
  have hp : (requestOf l1 rest ca cp).path = none := by
    simp only [requestOf, hfail]
    exact ((parseHeaderLoop_fields (rest.length + 1) rest _).2.1).trans rfl
  have hpr : (requestOf l1 rest ca cp).protocol = none := by
    simp only [requestOf, hfail]
    exact ((parseHeaderLoop_fields (rest.length + 1) rest _).2.2.2).trans rfl
  simp only [handle_client, hsplit, routePhase]
  refine ⟨hm, hp, hpr, ?_, ?_⟩
  · intro hroutes
    rw [hroutes]
    cases hst : (runMiddlewares msem (requestOf l1 rest ca cp) 0 server.middlewares
        (create_response, eb)).2 with
    | mk resp eb1 =>
      refine ⟨(nyx_http_response_error resp 404 (some "Not Found")).2,
              (nyx_http_response_error resp 404 (some "Not Found")).1,
              by simp [routePhaseAux], ?_, ?_⟩
      · simp [nyx_http_response_error, nyx_http_response_set_header]
      · simp [nyx_http_response_error, nyx_http_response_set_header, resolveBody]
  · intro hroutes
    cases hr : server.routes with
    | nil => exact absurd hr hroutes
    | cons route rs =>
      simp [routePhaseAux, hm]

/-- C1 amended witness: buffer "junk\r\n\r\n" against the empty route table
(tolerated, 404) and the theorem's crash branch is vacuous there. -/
theorem c1_amended_witness :
    (handle_client ⟨[], []⟩ "junk\x0d\x0a\x0d\x0a"
        (fun _ _ _ st => st) (fun _ _ _ st => st) "" "127.0.0.1" 80).req.method = none ∧
    (handle_client ⟨[], []⟩ "junk\x0d\x0a\x0d\x0a"
        (fun _ _ _ st => st) (fun _ _ _ st => st) "" "127.0.0.1" 80).req.path = none ∧
    (handle_client ⟨[], []⟩ "junk\x0d\x0a\x0d\x0a"
        (fun _ _ _ st => st) (fun _ _ _ st => st) "" "127.0.0.1" 80).req.protocol = none ∧
    ((⟨[], []⟩ : NyxHttpServer).routes = [] →
      ∃ r e, (handle_client ⟨[], []⟩ "junk\x0d\x0a\x0d\x0a"
          (fun _ _ _ st => st) (fun _ _ _ st => st) "" "127.0.0.1" 80).result
          = Except.ok (r, e) ∧
        r.status_code = 404 ∧
        resolveBody e r.body = some (renderErrorPage 404 (some "Not Found"))) ∧
    ((⟨[], []⟩ : NyxHttpServer).routes ≠ [] →
      (handle_client ⟨[], []⟩ "junk\x0d\x0a\x0d\x0a"
          (fun _ _ _ st => st) (fun _ _ _ st => st) "" "127.0.0.1" 80).result
        = Except.error Crash.nullDeref) :=
  c1_amended ⟨[], []⟩ "junk\x0d\x0a\x0d\x0a" (fun _ _ _ st => st) (fun _ _ _ st => st)
    "" "127.0.0.1" 80 "junk".data "\x0d\x0a".data rfl rfl

/-- `strchr` misses: splitting at an absent character yields none. -/
theorem splitAtChar_not_mem (c : Char) (s : List Char) (h : c ∉ s) :
    splitAtChar c s = none := by
  induction s with
  | nil => rfl
  | cons x xs ih =>
    have hx : x ≠ c := fun he => h (he ▸ List.mem_cons_self x xs)
    have hxs : c ∉ xs := fun hm => h (List.mem_cons_of_mem x hm)
    simp [splitAtChar, hx, ih hxs]

/-- C7: parsing rejects over-long fields instead of truncating. For request
lines shaped `METHOD SP PATH[?QUERY] SP PROTOCOL`: a method of 16 bytes or
more, a path of 256 or more (with or without a query part), a query of 512
or more, or a protocol of 16 or more each make parse_request_line fail
(return none — nothing stored); for header lines `NAME ':' REST`, a name of
128 bytes or more or a (whitespace-trimmed) value of 512 or more each make
parse_header fail. -/
theorem c7_parse_bounds :
    (∀ (m rest : List Char), ' ' ∉ m → m.length ≥ 16 →
      parse_request_line (String.mk (m ++ ' ' :: rest)) = none) ∧
    (∀ (m seg proto : List Char), ' ' ∉ m → ' ' ∉ seg → '?' ∉ seg →
      seg.length ≥ 256 →
      parse_request_line (String.mk (m ++ ' ' :: (seg ++ ' ' :: proto))) = none) ∧
    (∀ (m pa qu proto : List Char), ' ' ∉ m → ' ' ∉ pa → ' ' ∉ qu → '?' ∉ pa →
      pa.length ≥ 256 →
      parse_request_line
        (String.mk (m ++ ' ' :: ((pa ++ '?' :: qu) ++ ' ' :: proto))) = none) ∧
    (∀ (m pa qu proto : List Char), ' ' ∉ m → ' ' ∉ pa → ' ' ∉ qu → '?' ∉ pa →
      qu.length ≥ 512 →
      parse_request_line
        (String.mk (m ++ ' ' :: ((pa ++ '?' :: qu) ++ ' ' :: proto))) = none) ∧
    (∀ (m seg proto : List Char), ' ' ∉ m → ' ' ∉ seg → proto.length ≥ 16 →
      parse_request_line (String.mk (m ++ ' ' :: (seg ++ ' ' :: proto))) = none) ∧
    (∀ (n rest : List Char), ':' ∉ n → n.length ≥ 128 →
      parse_header (String.mk (n ++ ':' :: rest)) = none) ∧
    (∀ (n rest : List Char), ':' ∉ n →
      (rest.dropWhile (fun c => c == ' ' || c == '\x09')).length ≥ 512 →
      parse_header (String.mk (n ++ ':' :: rest)) = none) := by
  have hsegmem : ∀ (pa qu : List Char), ' ' ∉ pa → ' ' ∉ qu →
      (' ' : Char) ∉ pa ++ '?' :: qu := by
    intro pa qu hpa hqu hmem
    rcases List.mem_append.mp hmem with h | h
    · exact hpa h
    · rcases List.mem_cons.mp h with h | h
      · exact absurd h (by decide)
      · exact hqu h
  refine ⟨?_, ?_, ?_, ?_, ?_, ?_, ?_⟩
  · intro m rest hm h16
    simp [parse_request_line, splitAtChar_append ' ' m rest hm, h16]
  · intro m seg proto hm hseg hq h256
    by_cases h16 : m.length ≥ 16
    · simp [parse_request_line,
            splitAtChar_append ' ' m (seg ++ ' ' :: proto) hm, h16]
    · simp [parse_request_line,
            splitAtChar_append ' ' m (seg ++ ' ' :: proto) hm, h16,
            splitAtChar_append ' ' seg proto hseg,
            splitAtChar_not_mem '?' seg hq, h256]
  · intro m pa qu proto hm hpa hqu hqpa h256
    have hmid : splitAtChar ' ' (pa ++ '?' :: (qu ++ ' ' :: proto))
        = some (pa ++ '?' :: qu, proto) := by
      simpa using splitAtChar_append ' ' (pa ++ '?' :: qu) proto (hsegmem pa qu hpa hqu)
    by_cases h16 : m.length ≥ 16
    · simp [parse_request_line,
            splitAtChar_append ' ' m (pa ++ '?' :: (qu ++ ' ' :: proto)) hm, h16]
    · simp [parse_request_line,
            splitAtChar_append ' ' m (pa ++ '?' :: (qu ++ ' ' :: proto)) hm, h16,
            hmid, splitAtChar_append '?' pa qu hqpa, h256]
  · intro m pa qu proto hm hpa hqu hqpa h512
    have hmid : splitAtChar ' ' (pa ++ '?' :: (qu ++ ' ' :: proto))
        = some (pa ++ '?' :: qu, proto) := by
      simpa using splitAtChar_append ' ' (pa ++ '?' :: qu) proto (hsegmem pa qu hpa hqu)
    by_cases h16 : m.length ≥ 16
    · simp [parse_request_line,
            splitAtChar_append ' ' m (pa ++ '?' :: (qu ++ ' ' :: proto)) hm, h16]
    · by_cases h256 : pa.length ≥ 256
      · simp [parse_request_line,
              splitAtChar_append ' ' m (pa ++ '?' :: (qu ++ ' ' :: proto)) hm, h16,
              hmid, splitAtChar_append '?' pa qu hqpa, h256]
      · simp [parse_request_line,
              splitAtChar_append ' ' m (pa ++ '?' :: (qu ++ ' ' :: proto)) hm, h16,
              hmid, splitAtChar_append '?' pa qu hqpa, h256, h512]
  · intro m seg proto hm hseg h16p
    by_cases h16 : m.length ≥ 16
    · simp [parse_request_line,
            splitAtChar_append ' ' m (seg ++ ' ' :: proto) hm, h16]
    · cases hq : splitAtChar '?' seg with
      | none =>
        by_cases h256 : seg.length ≥ 256
        · simp [parse_request_line,
                splitAtChar_append ' ' m (seg ++ ' ' :: proto) hm, h16,
                splitAtChar_append ' ' seg proto hseg, hq, h256]
        · simp [parse_request_line,
                splitAtChar_append ' ' m (seg ++ ' ' :: proto) hm, h16,
                splitAtChar_append ' ' seg proto hseg, hq, h256, h16p]
      | some pq =>
        obtain ⟨pa, qu⟩ := pq
        by_cases h256 : pa.length ≥ 256
        · simp [parse_request_line,
                splitAtChar_append ' ' m (seg ++ ' ' :: proto) hm, h16,
                splitAtChar_append ' ' seg proto hseg, hq, h256]
        · by_cases h512 : qu.length ≥ 512
          · simp [parse_request_line,
                  splitAtChar_append ' ' m (seg ++ ' ' :: proto) hm, h16,
                  splitAtChar_append ' ' seg proto hseg, hq, h256, h512]
          · simp [parse_request_line,
                  splitAtChar_append ' ' m (seg ++ ' ' :: proto) hm, h16,
                  splitAtChar_append ' ' seg proto hseg, hq, h256, h512, h16p]
  · intro n rest hn h128
    simp [parse_header, splitAtChar_append ':' n rest hn, h128]
  · intro n rest hn h512
    by_cases h128 : n.length ≥ 128
    · simp [parse_header, splitAtChar_append ':' n rest hn, h128]
    · simp [parse_header, splitAtChar_append ':' n rest hn, h128, h512]

/-- C7 witness: each bound violated at a concrete over-long field. -/
theorem c7_parse_bounds_witness :
    parse_request_line
      (String.mk (List.replicate 16 'A' ++ ' ' :: "/ HTTP/1.1".data)) = none ∧
    parse_request_line
      (String.mk ("GET".data ++ ' ' ::
        (List.replicate 256 'a' ++ ' ' :: "HTTP/1.1".data))) = none ∧
    parse_request_line
      (String.mk ("GET".data ++ ' ' ::
        ((List.replicate 256 'a' ++ '?' :: "q=1".data) ++ ' ' :: "HTTP/1.1".data)))
      = none ∧
    parse_request_line
      (String.mk ("GET".data ++ ' ' ::
        (("/p".data ++ '?' :: List.replicate 512 'q') ++ ' ' :: "HTTP/1.1".data)))
      = none ∧
    parse_request_line
      (String.mk ("GET".data ++ ' ' ::
        ("/p".data ++ ' ' :: List.replicate 16 'H'))) = none ∧
    parse_header (String.mk (List.replicate 128 'N' ++ ':' :: " v".data)) = none ∧
    parse_header (String.mk ("Name".data ++ ':' :: List.replicate 512 'v')) = none :=
  ⟨c7_parse_bounds.1 (List.replicate 16 'A') "/ HTTP/1.1".data (by decide) (by decide),
   c7_parse_bounds.2.1 "GET".data (List.replicate 256 'a') "HTTP/1.1".data
     (by decide) (by decide) (by decide) (by decide),
   c7_parse_bounds.2.2.1 "GET".data (List.replicate 256 'a') "q=1".data "HTTP/1.1".data
     (by decide) (by decide) (by decide) (by decide) (by decide),
   c7_parse_bounds.2.2.2.1 "GET".data "/p".data (List.replicate 512 'q') "HTTP/1.1".data
     (by decide) (by decide) (by decide) (by decide) (by decide),
   c7_parse_bounds.2.2.2.2.1 "GET".data "/p".data (List.replicate 16 'H')
     (by decide) (by decide) (by decide),
   c7_parse_bounds.2.2.2.2.2.1 (List.replicate 128 'N') " v".data (by decide) (by decide),
   c7_parse_bounds.2.2.2.2.2.2 "Name".data (List.replicate 512 'v')
     (by decide) (by decide)⟩

/-- The suffix→MIME table as the spec states it, keyed on the extension
starting at the last dot of the path (for comparison against what
nyx_http_response_file actually does). -/
def specMimeFor (path : String) : Option String :=
  match strrchrSuffix '.' path.data with
  | none => none
  | some extL =>
    let ext := String.mk extL
    if ext == ".html" || ext == ".htm" then some "text/html"
    else if ext == ".css" then some "text/css"
    else if ext == ".js" then some "application/javascript"
    else if ext == ".json" then some "application/json"
    else if ext == ".png" then some "image/png"
    else if ext == ".jpg" || ext == ".jpeg" then some "image/jpeg"
    else none

/-- C8: `nyx_http_response_file` — when the file cannot be opened, the
response becomes the 404 error page and the call reports failure (-1); when
the body allocation fails, the 500 error page and failure; otherwise status
200, the full file contents as body with exact length, success (0), and a
Content-Type appended per the fixed suffix→MIME table (`specMimeFor`), with
unknown extensions leaving the headers (hence the content type) untouched. -/
theorem c8_file_response :
    (∀ (fs : String → Option String) (allocOk : Bool) (eb : String)
       (resp : NyxHttpResponse) (path : String), fs path = none →
      nyx_http_response_file fs allocOk eb resp path
        = ((nyx_http_response_error resp 404 (some "File not found")).1,
           (nyx_http_response_error resp 404 (some "File not found")).2, -1) ∧
      (nyx_http_response_error resp 404 (some "File not found")).2.status_code = 404 ∧
      resolveBody (nyx_http_response_error resp 404 (some "File not found")).1
          (nyx_http_response_error resp 404 (some "File not found")).2.body
        = some (renderErrorPage 404 (some "File not found"))) ∧
    (∀ (fs : String → Option String) (eb : String) (resp : NyxHttpResponse)
       (path content : String), fs path = some content →
      nyx_http_response_file fs false eb resp path
        = ((nyx_http_response_error resp 500 (some "Memory allocation failed")).1,
           (nyx_http_response_error resp 500 (some "Memory allocation failed")).2, -1) ∧
      (nyx_http_response_error resp 500 (some "Memory allocation failed")).2.status_code
        = 500) ∧
    (∀ (fs : String → Option String) (eb : String) (resp : NyxHttpResponse)
       (path content : String), fs path = some content →
      (nyx_http_response_file fs true eb resp path).2.2 = 0 ∧
      (nyx_http_response_file fs true eb resp path).1 = eb ∧
      (nyx_http_response_file fs true eb resp path).2.1.status_code = 200 ∧
      (nyx_http_response_file fs true eb resp path).2.1.body = Body.lit content ∧
      (nyx_http_response_file fs true eb resp path).2.1.body_length = content.length ∧
      (nyx_http_response_file fs true eb resp path).2.1.headers
        = (match specMimeFor path with
           | some ct => headerDictSet resp.headers "Content-Type" ct
           | none => resp.headers)) := by
  refine ⟨?_, ?_, ?_⟩
  · intro fs allocOk eb resp path hfs
    refine ⟨by simp [nyx_http_response_file, hfs], ?_, ?_⟩
    · simp [nyx_http_response_error, nyx_http_response_set_header]
    · simp [nyx_http_response_error, nyx_http_response_set_header, resolveBody]
  · intro fs eb resp path content hfs
    exact ⟨by simp [nyx_http_response_file, hfs],
           by simp [nyx_http_response_error, nyx_http_response_set_header]⟩
  · intro fs eb resp path content hfs
    simp only [nyx_http_response_file, hfs, Bool.not_true, Bool.false_eq_true,
               if_false, specMimeFor]
    cases hext : strrchrSuffix '.' path.data with
    | none => simp
    | some extL =>
      by_cases h1 : (String.mk extL == ".html" || String.mk extL == ".htm") = true
      · simp [h1, nyx_http_response_set_header]
      · by_cases h2 : (String.mk extL == ".css") = true
        · simp [h1, h2, nyx_http_response_set_header]
        · by_cases h3 : (String.mk extL == ".js") = true
          · simp [h1, h2, h3, nyx_http_response_set_header]
          · by_cases h4 : (String.mk extL == ".json") = true
            · simp [h1, h2, h3, h4, nyx_http_response_set_header]
            · by_cases h5 : (String.mk extL == ".png") = true
              · simp [h1, h2, h3, h4, h5, nyx_http_response_set_header]
              · by_cases h6 : (String.mk extL == ".jpg" || String.mk extL == ".jpeg") = true
                · simp [h1, h2, h3, h4, h5, h6, nyx_http_response_set_header]
                · simp [h1, h2, h3, h4, h5, h6, nyx_http_response_set_header]

/-- C8 witness: `file("missing.txt")` against an fs that only holds
`style.css` yields the 404 branch; an allocation failure on `style.css`
yields the 500 branch; a successful read of `style.css` yields 200 with
`Content-Type: text/css`. -/
theorem c8_file_response_witness :
    (nyx_http_response_file (fun p => if p == "style.css" then some "h1" else none)
        true "" create_response "missing.txt"
      = ((nyx_http_response_error create_response 404 (some "File not found")).1,
         (nyx_http_response_error create_response 404 (some "File not found")).2, -1) ∧
     (nyx_http_response_error create_response 404 (some "File not found")).2.status_code
       = 404 ∧
     resolveBody (nyx_http_response_error create_response 404 (some "File not found")).1
         (nyx_http_response_error create_response 404 (some "File not found")).2.body
       = some (renderErrorPage 404 (some "File not found"))) ∧
    (nyx_http_response_file (fun p => if p == "style.css" then some "h1" else none)
        false "" create_response "style.css"
      = ((nyx_http_response_error create_response 500 (some "Memory allocation failed")).1,
         (nyx_http_response_error create_response 500 (some "Memory allocation failed")).2,
         -1) ∧
     (nyx_http_response_error create_response 500
         (some "Memory allocation failed")).2.status_code = 500) ∧
    ((nyx_http_response_file (fun p => if p == "style.css" then some "h1" else none)
        true "" create_response "style.css").2.2 = 0 ∧
     (nyx_http_response_file (fun p => if p == "style.css" then some "h1" else none)
        true "" create_response "style.css").1 = "" ∧
     (nyx_http_response_file (fun p => if p == "style.css" then some "h1" else none)
        true "" create_response "style.css").2.1.status_code = 200 ∧
     (nyx_http_response_file (fun p => if p == "style.css" then some "h1" else none)
        true "" create_response "style.css").2.1.body = Body.lit "h1" ∧
     (nyx_http_response_file (fun p => if p == "style.css" then some "h1" else none)
        true "" create_response "style.css").2.1.body_length = "h1".length ∧
     (nyx_http_response_file (fun p => if p == "style.css" then some "h1" else none)
        true "" create_response "style.css").2.1.headers
       = (match specMimeFor "style.css" with
          | some ct => headerDictSet create_response.headers "Content-Type" ct
          | none => create_response.headers)) :=
  ⟨c8_file_response.1 (fun p => if p == "style.css" then some "h1" else none)
     true "" create_response "missing.txt" rfl,
   c8_file_response.2.1 (fun p => if p == "style.css" then some "h1" else none)
     "" create_response "style.css" "h1" rfl,
   c8_file_response.2.2 (fun p => if p == "style.css" then some "h1" else none)
     "" create_response "style.css" "h1" rfl⟩

end Nyx
